import Mathlib

/-!
Verification development for the rbufr BUFR decoder.

The definitions below are a shallow embedding of the Rust sources
(`rbufr/src/decoder.rs`, `rbufr/src/parser.rs`, `rbufr/src/structs/versions/*`,
`gen/src/lib.rs`).  Machine integers are modelled as `Nat`/`Int` with explicit
reductions modulo `2^32` / `2^64` where the Rust code can wrap; wherever the
Rust arithmetic would overflow, the model follows the two's-complement
wrapping behaviour of release builds (debug builds would abort instead, which
is noted where it matters).  Fallible operations return `Option`/`Except`.
Byte buffers are `List Nat` with each byte below 256.
-/

namespace RBufr

/-- The `u64` modulus. -/
def U64 : Nat := 2 ^ 64

/-- Two's-complement wrap of an integer into the `i32` range, the release-mode
result of overflowing `i32` arithmetic. -/
def wrap32 (n : Int) : Int := (n + 2 ^ 31) % 2 ^ 32 - 2 ^ 31

/-- Rust's `as u32` cast from `i32` (reduction modulo `2^32`). -/
def toU32 (n : Int) : Nat := (n % (2 ^ 32 : Int)).toNat

/-- Rust's `as usize` cast from a signed integer (reduction modulo `2^64`). -/
def toUsize (n : Int) : Nat := (n % (2 ^ 64 : Int)).toNat

/-- Rust's `u32::overflowing_add_signed` (wrapping result component). -/
def u32AddSigned (a : Nat) (b : Int) : Nat := (((a : Int) + b) % (2 ^ 32 : Int)).toNat

/-- The bit-stream reader `BitInput(&[u8], usize)` of `decoder.rs`: the
remaining byte slice plus the bit offset into its first byte. -/
structure BitInput where
  bytes : List Nat
  off : Nat
deriving DecidableEq

/-- Big-endian accumulation loop `value = (value << 8) | byte` over a `u64`
accumulator (each step reduced modulo `2^64`, as the Rust `u64` is). -/
def beAccum (l : List Nat) : Nat := l.foldl (fun a b => ((a <<< 8) ||| b) % U64) 0

/-- `BitInput::get_arbitary_bits_aligned`: byte-aligned reads, with the
specialised `8/16/24/32` paths and the generic path reading `nbits/8` full
bytes plus a partial byte.  `none` models the `Err(ParseError("Not enough
data"))` returns. -/
def getArbitaryBitsAligned (s : BitInput) (nbits : Nat) : Option (Nat × BitInput) :=
  let bd := s.bytes
  match nbits with
  | 8 =>
    match bd with
    | [] => none
    | b :: rest => some (b, ⟨rest, 0⟩)
  | 16 =>
    if bd.length < 2 then none
    else some ((bd.getD 0 0) <<< 8 ||| bd.getD 1 0, ⟨bd.drop 2, 0⟩)
  | 24 =>
    if bd.length < 3 then none
    else some ((bd.getD 0 0) <<< 16 ||| (bd.getD 1 0) <<< 8 ||| bd.getD 2 0, ⟨bd.drop 3, 0⟩)
  | 32 =>
    if bd.length < 4 then none
    else
      some ((bd.getD 0 0) <<< 24 ||| (bd.getD 1 0) <<< 16 ||| (bd.getD 2 0) <<< 8 ||| bd.getD 3 0,
        ⟨bd.drop 4, 0⟩)
  | _ =>
    let nbytes := (nbits + 7) / 8
    if bd.length < nbytes then none
    else
      let fullBytes := nbits / 8
      let value := beAccum (bd.take fullBytes)
      let remainingBits := nbits % 8
      if remainingBits > 0 then
        let lastByte := bd.getD fullBytes 0
        let shift := 8 - remainingBits
        let mask := (1 <<< remainingBits) - 1
        let bits := (lastByte >>> shift) &&& mask
        some (((value <<< remainingBits) ||| bits) % U64, ⟨bd.drop fullBytes, remainingBits⟩)
      else some (value, ⟨bd.drop fullBytes, 0⟩)

/-- `BitInput::get_arbitary_bits_unaligned`.  The shift amount
`bits_in_buffer - bit_offset - nbits` is a `usize` subtraction: when
`bit_offset + nbits > 64` (the nine-byte case) it underflows, which wraps
modulo `2^64` in release builds, and the subsequent `>>` masks the shift
amount by 63; the model reproduces exactly that behaviour (a debug build
would abort at the subtraction). -/
def getArbitaryBitsUnaligned (s : BitInput) (nbits : Nat) : Option (Nat × BitInput) :=
  if nbits > 64 then none
  else
    let bitOffset := s.off
    let totalBitsNeeded := bitOffset + nbits
    let bytesNeeded := (totalBitsNeeded + 7) / 8
    if s.bytes.length < bytesNeeded then none
    else
      let bytesToRead := min bytesNeeded 8
      let buffer0 := beAccum (s.bytes.take bytesToRead)
      let buffer :=
        if bytesNeeded > 8 then
          let ninthByte := s.bytes.getD 8 0
          let bitsFromNinth := totalBitsNeeded - 64
          ((buffer0 <<< bitsFromNinth) % U64) ||| (ninthByte >>> (8 - bitsFromNinth))
        else buffer0
      let bitsInBuffer := bytesToRead * 8
      let shift := ((((bitsInBuffer : Int) - bitOffset - nbits) % (2 ^ 64 : Int))).toNat
      let mask := if nbits = 64 then U64 - 1 else (1 <<< nbits) - 1
      let value := (buffer >>> (shift % 64)) &&& mask
      let newBitPosition := s.off + nbits
      some (value, ⟨s.bytes.drop (newBitPosition / 8), newBitPosition % 8⟩)

/-- `BitInput::get_arbitary_bits`: zero-width reads yield 0, aligned reads go
through the aligned fast path, the rest through the unaligned path. -/
def getArbitaryBits (s : BitInput) (nbits : Nat) : Option (Nat × BitInput) :=
  if nbits = 0 then some (0, s)
  else if s.off = 0 then getArbitaryBitsAligned s nbits
  else getArbitaryBitsUnaligned s nbits

/-- Unaligned loop of `BitInput::take_string`: `nbytes` octets read through
`get_arbitary_bits(8)`. -/
def takeStringUnaligned (s : BitInput) : Nat → Option (List Nat × BitInput)
  | 0 => some ([], s)
  | n + 1 =>
    match getArbitaryBits s 8 with
    | none => none
    | some (b, s') =>
      match takeStringUnaligned s' n with
      | none => none
      | some (bs, s'') => some (b :: bs, s'')

/-- `BitInput::take_string`.  Strings are modelled as their raw octet lists;
the UTF-8 re-decoding step of the source (which merely validates the octets)
is not modelled. -/
def takeString (s : BitInput) (nbytes : Nat) : Option (List Nat × BitInput) :=
  if nbytes = 0 then some ([], s)
  else if s.off = 0 then
    if s.bytes.length < nbytes then none
    else some (s.bytes.take nbytes, ⟨s.bytes.drop nbytes, 0⟩)
  else takeStringUnaligned s nbytes

/-- The descriptor key `FXY { f: i32, x: i32, y: i32 }` of `gen/src/lib.rs`.
The archived (`ArchivedFXY`) and in-memory representations carry the same
three integers and compare equal as tuples, so one type models both. -/
structure FXY where
  f : Int
  x : Int
  y : Int
deriving DecidableEq

/-- A Table B element entry (`ArchivedBTableEntry`): the fields the decoder
reads. -/
structure BTableEntry where
  fxy : FXY
  element_name_en : String
  bufr_unit : String
  bufr_scale : Int
  bufr_reference_value : Int
  bufr_datawidth_bits : Nat
deriving DecidableEq

/-- A Table D sequence entry (`ArchivedDTableEntry`): the descriptor chain. -/
structure DTableEntry where
  fxy : FXY
  fxy_chain : List FXY
deriving DecidableEq

/-- The mutable operator state of `decoder.rs`.  The source has two structs
with exactly these six optional slots, `State` (used by the interpreter) and
`CompilerState` (used by the array compiler); both are modelled by this one
record. -/
structure State where
  common_scale : Option Int
  common_ref_value : Option Int
  common_data_width : Option Int
  common_str_width : Option Nat
  local_data_width : Option Int
  temp_operator : Option Int
deriving DecidableEq

/-- `State::new()`: all slots empty. -/
def State.empty : State := ⟨none, none, none, none, none, none⟩

/-- The flag-table/code-table unit test used by `State::no_change`. -/
def isFlagOrCode (unit : String) : Bool :=
  unit = "flag table" || unit = "flag-table" || unit = "code table" || unit = "code-table"

/-- `State::no_change`: width/scale overrides do not apply to flag/code-table
units or to delayed-replication counters (F=0, X=31).  The `&self` receiver is
unused in the source. -/
def no_change (e : BTableEntry) : Bool :=
  isFlagOrCode e.bufr_unit || (e.fxy.f == 0 && e.fxy.x == 31)

/-- `State::datawidth`: `local_data_width` short-circuits; otherwise the
2-01 bias `(c − 128)` is added for non-exempt elements with wrapping `u32`
arithmetic, and an active 2-07 operator adds `10·Y` bits. -/
def State.datawidth (st : State) (e : BTableEntry) : Nat :=
  match st.local_data_width with
  | some localWidth => toU32 localWidth
  | none =>
    let v : Nat :=
      if no_change e then e.bufr_datawidth_bits
      else
        match st.common_data_width with
        | some c => u32AddSigned e.bufr_datawidth_bits (wrap32 (c - 128))
        | none => e.bufr_datawidth_bits
    match st.temp_operator with
    | some op => (v + toU32 (wrap32 (10 * op))) % 2 ^ 32
    | none => v

/-- `State::scale`: the 2-02 bias `(128 − c)` is added for non-exempt
elements, but an active 2-07 operator makes the function return
`base_scale + Y` instead, discarding the 2-02 contribution. -/
def State.scale (st : State) (e : BTableEntry) : Int :=
  let v : Int :=
    if no_change e then e.bufr_scale
    else
      match st.common_scale with
      | some c => wrap32 (e.bufr_scale + wrap32 (128 - c))
      | none => e.bufr_scale
  match st.temp_operator with
  | some op => wrap32 (e.bufr_scale + op)
  | none => v

/-- `State::reference_value`.  When 2-07 is active the source computes
`(v as f32 * 10_f32.powi(op)) as i32`; that single-precision computation is
abstracted as the parameter `refT`, which every use of the model shares (the
interpreter and the array compiler evaluate literally the same
expression). -/
def State.reference_value (refT : Int → Int → Int) (st : State) (e : BTableEntry) : Int :=
  match st.temp_operator with
  | some op => refT e.bufr_reference_value op
  | none => e.bufr_reference_value

/-- A decoded value.  The source stores `Number(f64)` where the float is
`((raw as f64) + reference) * 10f64.powi(-scale)`; since that is a fixed
function of the triple `(raw, reference, scale)`, the model keeps the triple
itself (two values are byte-identical floats whenever their triples are
equal).  Strings are kept as octet lists. -/
inductive Value where
  | number (raw : Nat) (reference : Int) (scale : Int)
  | missing
  | str (octets : List Nat)
deriving DecidableEq

/-- The sentinel `MISS_VAL = 99999.999999` as an exact rational. -/
def MISS_VAL : ℚ := Rat.divInt 99999999999 1000000

/-- The float `((raw as f64) + reference) * 10f64.powi(-scale)` idealised as
the exact rational `(raw + reference)·10^(−scale)`. -/
def ratValue (raw : Nat) (reference scale : Int) : ℚ :=
  if 0 ≤ scale then Rat.divInt ((raw : Int) + reference) (10 ^ scale.toNat)
  else Rat.divInt (((raw : Int) + reference) * 10 ^ (-scale).toNat) 1

/-- `Value::as_f64` (`Missing` maps to `MISS_VAL`, strings to `None`). -/
def Value.as_f64 : Value → Option ℚ
  | .number raw reference scale => some (ratValue raw reference scale)
  | .missing => some MISS_VAL
  | .str _ => none

/-- Error taxonomy of the modelled paths.  `parse` stands for
`Error::ParseError(_)` and nom failures (messages dropped), `ioEof` for the
`std::io` unexpected-EOF errors of `read_exact`, `unsupportedVersion` for
`Error::UnsupportedVersion`, and `crash` for a Rust panic (an index past the
end of a slice), which is not a typed error at all. -/
inductive Err where
  | parse
  | ioEof
  | unsupportedVersion (v : Nat)
  | crash
deriving DecidableEq

/-- A Table B catalog (`BufrTableMph` of `gen/src/lib.rs`): the entry vector
in hash order, plus the minimal perfect hash function.  For unknown keys the
MPHF may return an arbitrary index (or nothing), so it is modelled as an
arbitrary function. -/
structure BTable where
  entries : List BTableEntry
  mphf : FXY → Option Nat

/-- A Table D catalog, same layout. -/
structure DTable where
  entries : List DTableEntry
  mphf : FXY → Option Nat

/-- `BufrTableMph::get` / `BUFRTableMPH::lookup`: fetch the entry at the index
the MPHF yields.  Note there is no equality filter at this level. -/
def BTable.lookup (t : BTable) (k : FXY) : Option BTableEntry :=
  (t.mphf k).bind (fun h => t.entries[h]?)

/-- `BufrTableMph::get` for Table D. -/
def DTable.lookup (t : DTable) (k : FXY) : Option DTableEntry :=
  (t.mphf k).bind (fun h => t.entries[h]?)

/-- The decoder's `Cache`: master tables plus optional local tables. -/
structure Cache where
  master_b : BTable
  master_d : DTable
  local_b : Option BTable
  local_d : Option DTable

/-- `Cache::lookup_local_b_descriptor`: local lookup filtered on FXY
equality. -/
def Cache.lookup_local_b (c : Cache) (k : FXY) : Option BTableEntry :=
  match c.local_b.bind (fun t => t.lookup k) with
  | some e => if e.fxy = k then some e else none
  | none => none

/-- `Cache::lookup_master_b_descriptor`: master lookup filtered on FXY
equality. -/
def Cache.lookup_master_b (c : Cache) (k : FXY) : Option BTableEntry :=
  match c.master_b.lookup k with
  | some e => if e.fxy = k then some e else none
  | none => none

/-- `Cache::lookup_b_descriptor` (also `get_b`): local first, then master. -/
def Cache.lookup_b_descriptor (c : Cache) (k : FXY) : Option BTableEntry :=
  match c.lookup_local_b k with
  | some e => some e
  | none => c.lookup_master_b k

/-- `Cache::lookup_local_d_descriptor`. -/
def Cache.lookup_local_d (c : Cache) (k : FXY) : Option DTableEntry :=
  match c.local_d.bind (fun t => t.lookup k) with
  | some e => if e.fxy = k then some e else none
  | none => none

/-- `Cache::lookup_master_d_descriptor`. -/
def Cache.lookup_master_d (c : Cache) (k : FXY) : Option DTableEntry :=
  match c.master_d.lookup k with
  | some e => if e.fxy = k then some e else none
  | none => none

/-- `Cache::lookup_d_descriptor` (also `get_d`). -/
def Cache.lookup_d_descriptor (c : Cache) (k : FXY) : Option DTableEntry :=
  match c.lookup_local_d k with
  | some e => some e
  | none => c.lookup_master_d k

/-- `Decoder::evalute`: CCITT IA5 units read a string of
`common_str_width.unwrap_or(⌈width/8⌉)` octets; every other unit reads the
effective width, compares the raw value against `(1 << width) - 1` (in a
release build the shift amount wraps modulo 64, so at width 64 the mask is 0;
a debug build would abort there), exempts X=31 descriptors from the missing
rule, and otherwise yields the number `(raw + reference)·10^(−scale)`
represented by its defining triple. -/
def evalute (refT : Int → Int → Int) (st : State) (data : BitInput) (e : BTableEntry) :
    Except Err (Value × BitInput) :=
  if e.bufr_unit = "CCITT IA5" then
    let totalBytes := st.common_str_width.getD ((e.bufr_datawidth_bits + 7) / 8)
    match takeString data totalBytes with
    | some (s, data') => .ok (.str s, data')
    | none => .error .parse
  else
    let datawidth := st.datawidth e
    let scale := st.scale e
    let referenceValue := State.reference_value refT st e
    match getArbitaryBits data datawidth with
    | none => .error .parse
    | some (value, data') =>
      let mv := (1 <<< (datawidth % 64)) - 1
      if value = mv ∧ e.fxy.x ≠ 31 then .ok (.missing, data')
      else .ok (.number value referenceValue scale, data')

/-- One entry pushed into `BUFRParsed` (name and unit borrowed from the
catalog entry). -/
structure PushedRec where
  name : String
  unit : String
  value : Value
deriving DecidableEq

/-- `Decoder::deal_with_operator`, dispatching on the operator's X with the
Y conventions of the source: 2-01/2-02/2-03/2-08 clear on Y=0, 2-05 consumes
a Y-byte literal string and pushes it, 2-06/2-07 arm the one-shot slots, and
every other X falls through to `_ => {}`. -/
def deal_with_operator (st : State) (x y : Int) (data : BitInput) :
    Except Err (State × List PushedRec × BitInput) :=
  if x = 1 then
    .ok ({ st with common_data_width := if y = 0 then none else some y }, [], data)
  else if x = 2 then
    .ok ({ st with common_scale := if y = 0 then none else some y }, [], data)
  else if x = 3 then
    .ok ({ st with common_ref_value := if y = 0 then none else some y }, [], data)
  else if x = 5 then
    match takeString data (toUsize y) with
    | some (s, data') => .ok (st, [⟨"", "CAITT IA5", .str s⟩], data')
    | none => .error .parse
  else if x = 6 then
    .ok ({ st with local_data_width := some y }, [], data)
  else if x = 7 then
    .ok ({ st with temp_operator := some y }, [], data)
  else if x = 8 then
    .ok ({ st with common_str_width := if y = 0 then none else some (toUsize y) }, [], data)
  else .ok (st, [], data)

/-- Rust's saturating `f64 → usize` cast composed with `floor`, on the exact
rational model of the float. -/
def floorToUsize (q : ℚ) : Nat := (min (max (⌊q⌋) 0) ((2 ^ 64 : Int) - 1)).toNat

/-- `Decoder::parse_usize`: decode one F=0 element and floor its numeric
value into a count; everything else is a `ParseError`.  Note the operator
state is taken by shared reference, so the one-shot slots are NOT cleared
here. -/
def parse_usize (refT : Int → Int → Int) (cache : Cache) (st : State) (d : FXY)
    (data : BitInput) : Except Err (Nat × BitInput) :=
  if d.f = 0 then
    match cache.lookup_b_descriptor d with
    | some e =>
      match evalute refT st data e with
      | .error er => .error er
      | .ok (v, data') =>
        match v.as_f64 with
        | some q => .ok (floorToUsize q, data')
        | none => .error .parse
    | none => .error .parse
  else .error .parse

/-- Pre-compiled metadata for one field of an eligible array body
(`FieldSpec` in `decoder.rs`). -/
structure FieldSpec where
  fxy : FXY
  name : String
  unit : String
  width_bits : Nat
  scale : Int
  reference : Int
  missing_value : Nat
deriving DecidableEq

/-- `CompiledLayout`: the fields plus the per-repetition bit count. -/
structure CompiledLayout where
  fields : List FieldSpec
  bits_per_element : Nat
deriving DecidableEq

/-- `Decoder::apply_operator_to_compiler`: the boolean is `false` exactly for
the rejected operators 2-05 and 2-08; unknown X values are allowed and
ignored.  The source returns `Result<bool>` but never errs. -/
def applyOperatorToCompiler (cs : State) (x y : Int) : Bool × State :=
  if x = 1 then (true, { cs with common_data_width := if y = 0 then none else some y })
  else if x = 2 then (true, { cs with common_scale := if y = 0 then none else some y })
  else if x = 3 then (true, { cs with common_ref_value := if y = 0 then none else some y })
  else if x = 5 then (false, cs)
  else if x = 6 then (true, { cs with local_data_width := some y })
  else if x = 7 then (true, { cs with temp_operator := some y })
  else if x = 8 then (false, cs)
  else (true, cs)

/-- `Decoder::compute_effective_width`: same computation as
`State::datawidth`, restated by the compiler. -/
def compute_effective_width (cs : State) (e : BTableEntry) : Nat :=
  match cs.local_data_width with
  | some localWidth => toU32 localWidth
  | none =>
    let baseWidth : Nat :=
      if no_change e then e.bufr_datawidth_bits
      else
        match cs.common_data_width with
        | some c => u32AddSigned e.bufr_datawidth_bits (wrap32 (c - 128))
        | none => e.bufr_datawidth_bits
    match cs.temp_operator with
    | some op => (baseWidth + toU32 (wrap32 (10 * op))) % 2 ^ 32
    | none => baseWidth

/-- `Decoder::compute_effective_scale`: unlike `State::scale`, an active 2-07
operator adds its Y on top of the 2-02-adjusted base scale (rather than on
the raw base scale). -/
def compute_effective_scale (cs : State) (e : BTableEntry) : Int :=
  let baseScale : Int :=
    if no_change e then e.bufr_scale
    else
      match cs.common_scale with
      | some c => wrap32 (e.bufr_scale + wrap32 (128 - c))
      | none => e.bufr_scale
  match cs.temp_operator with
  | some op => wrap32 (baseScale + op)
  | none => baseScale

/-- `Decoder::compute_effective_reference`: identical single-precision
expression as `State::reference_value`, abstracted by the same `refT`. -/
def compute_effective_reference (refT : Int → Int → Int) (cs : State) (e : BTableEntry) : Int :=
  match cs.temp_operator with
  | some op => refT e.bufr_reference_value op
  | none => e.bufr_reference_value

/-- The body loop of `Decoder::try_compile_array_layout`: walks the body with
a fresh compiler state, emitting one `FieldSpec` per element.  `ok none`
models the `return Ok(None)` rejections (CCITT IA5 element, 2-05/2-08
operator, nested replication or sequence); `error` models a missing Table B
entry or an invalid F.  Returns the fields, the accumulated
`bits_per_element` and the final compiler state. -/
def compileBody (refT : Int → Int → Int) (cache : Cache) :
    State → List FXY → Except Err (Option (List FieldSpec × Nat × State))
  | cs, [] => .ok (some ([], 0, cs))
  | cs, d :: rest =>
    if d.f = 0 then
      match cache.lookup_b_descriptor d with
      | none => .error .parse
      | some e =>
        if e.bufr_unit = "CCITT IA5" then .ok none
        else
          let width := compute_effective_width cs e
          let scale := compute_effective_scale cs e
          let reference := compute_effective_reference refT cs e
          let missing := if width = 64 then U64 - 1 else (1 <<< (width % 64)) - 1
          let fs : FieldSpec :=
            ⟨⟨d.f, d.x, d.y⟩, e.element_name_en, e.bufr_unit, width, scale, reference, missing⟩
          let cs' := { cs with temp_operator := none, local_data_width := none }
          match compileBody refT cache cs' rest with
          | .error er => .error er
          | .ok none => .ok none
          | .ok (some (fl, tb, csF)) => .ok (some (fs :: fl, width + tb, csF))
    else if d.f = 2 then
      let (accept, cs') := applyOperatorToCompiler cs d.x d.y
      if accept then compileBody refT cache cs' rest else .ok none
    else if d.f = 1 ∨ d.f = 3 then .ok none
    else .error .parse

/-- `Decoder::try_compile_array_layout`: reject repeat counts below 16, walk
the body from an empty compiler state (the live interpreter state is NOT
consulted), and reject a dangling `temp_operator`. -/
def try_compile_array_layout (refT : Int → Int → Int) (cache : Cache) (body : List FXY)
    (repeatCount : Nat) : Except Err (Option CompiledLayout) :=
  if repeatCount < 16 then .ok none
  else
    match compileBody refT cache State.empty body with
    | .error er => .error er
    | .ok none => .ok none
    | .ok (some (fields, totalBits, csF)) =>
      if csF.temp_operator.isSome then .ok none
      else .ok (some ⟨fields, totalBits⟩)

/-- An array cell of the fast path: `none` is the `MISS_VAL` sentinel, and a
numeric cell keeps the `(raw, reference, scale)` triple defining the float
`(raw + reference)·10^(−scale)` the source stores. -/
abbrev AVal := Option (Nat × Int × Int)

/-- One inner-loop step of `Decoder::parse_compiled_array`: read
`width_bits`, compare against the precompiled `missing_value` (delayed
counters exempted), and produce the cell. -/
def readCell (f : FieldSpec) (data : BitInput) : Except Err (AVal × BitInput) :=
  match getArbitaryBits data f.width_bits with
  | none => .error .parse
  | some (raw, data') =>
    if raw = f.missing_value ∧ ¬(f.fxy.f = 0 ∧ f.fxy.x = 31) then .ok (none, data')
    else .ok (some (raw, f.reference, f.scale), data')

/-- One repetition of the fast path: the fields in body order. -/
def readRow : List FieldSpec → BitInput → Except Err (List AVal × BitInput)
  | [], data => .ok ([], data)
  | f :: fl, data =>
    match readCell f data with
    | .error er => .error er
    | .ok (cell, data') =>
      match readRow fl data' with
      | .error er => .error er
      | .ok (row, data'') => .ok (cell :: row, data'')

/-- The outer loop of the fast path: `repeat_count` repetitions, each reading
every field in order. -/
def readRows (fields : List FieldSpec) : Nat → BitInput → Except Err (List (List AVal) × BitInput)
  | 0, data => .ok ([], data)
  | n + 1, data =>
    match readRow fields data with
    | .error er => .error er
    | .ok (row, data') =>
      match readRows fields n data' with
      | .error er => .error er
      | .ok (rows, data'') => .ok (row :: rows, data'')

/-- One emitted `Array` record: name, unit, and the per-repetition cells. -/
structure ArrayRec where
  name : String
  unit : String
  cells : List AVal
deriving DecidableEq

/-- Transposition of the decoded rows into the per-field vectors the source
maintains: the source pushes the i-th cell of every repetition onto the i-th
`total_values` vector, so field i ends up with exactly the i-th column. -/
def colsOutput (fields : List FieldSpec) (rows : List (List AVal)) : List ArrayRec :=
  fields.enum.map (fun p => ⟨p.2.name, p.2.unit, rows.map (fun r => r.getD p.1 none)⟩)

/-- `Decoder::parse_compiled_array`: decode `times` repetitions of the
compiled layout and emit one `Array` record per field, in body order. -/
def parse_compiled_array (layout : CompiledLayout) (times : Nat) (data : BitInput) :
    Except Err (List ArrayRec × BitInput) :=
  match readRows layout.fields times data with
  | .error er => .error er
  | .ok (rows, data') => .ok (colsOutput layout.fields rows, data')

/-- The clearing of the one-shot slots after an element decode
(`state.temp_operator = None; state.local_data_width = None`). -/
def clearOneShot (st : State) : State :=
  { st with temp_operator := none, local_data_width := none }

/-- The interpreted decoding of one pass over a replication body, as executed
by the stack machine of `Decoder::decode` on a `Slice` frame pushed by a
`Repeat` frame: each F=0 descriptor is looked up, evaluated and pushed with
the one-shot slots cleared, each F=2 descriptor goes through
`deal_with_operator`, and the walk continues at the next index (each step
pushes the continuation `Slice{idx+1}`).  Nested replications or sequences
would push further frames; they cannot occur in a body this model is applied
to (array-compilation eligibility rejects them), so those cases are given the
`crash` outcome here. -/
def runBody (refT : Int → Int → Int) (cache : Cache) :
    List FXY → State → BitInput → Except Err (List PushedRec × State × BitInput)
  | [], st, data => .ok ([], st, data)
  | d :: rest, st, data =>
    if d.f = 0 then
      match cache.lookup_b_descriptor d with
      | none => .error .parse
      | some e =>
        match evalute refT st data e with
        | .error er => .error er
        | .ok (v, data') =>
          match runBody refT cache rest (clearOneShot st) data' with
          | .error er => .error er
          | .ok (recs, stF, dataF) =>
            .ok (⟨e.element_name_en, e.bufr_unit, v⟩ :: recs, stF, dataF)
    else if d.f = 2 then
      match deal_with_operator st d.x d.y data with
      | .error er => .error er
      | .ok (st', pushed, data') =>
        match runBody refT cache rest st' data' with
        | .error er => .error er
        | .ok (recs, stF, dataF) => .ok (pushed ++ recs, stF, dataF)
    else .error .crash

/-- The interpreted decoding of a full `Repeat{body, times, current}` frame:
`times` successive passes of the body, threading the operator state and the
bit cursor. -/
def runReps (refT : Int → Int → Int) (cache : Cache) (body : List FXY) :
    Nat → State → BitInput → Except Err (List (List PushedRec) × State × BitInput)
  | 0, st, data => .ok ([], st, data)
  | n + 1, st, data =>
    match runBody refT cache body st data with
    | .error er => .error er
    | .ok (recs, st', data') =>
      match runReps refT cache body n st' data' with
      | .error er => .error er
      | .ok (rows, stF, dataF) => .ok (recs :: rows, stF, dataF)

/-- A frame of the interpreter stack (`Frame` in `decoder.rs`).  The
`Raw`/`Archived` descriptor-slice variants carry the same key data and are
both modelled as `List FXY`. -/
inductive Frame where
  | slice (descs : List FXY) (idx : Nat)
  | rep (descs : List FXY) (times : Nat) (current : Nat)
  | compiledArray (layout : CompiledLayout) (times : Nat)
deriving DecidableEq

/-- The visible result of one `Decoder::parse_slice` step: the new operator
state, the records pushed into the output, the advanced bit cursor, and the
frames pushed onto the stack (in push order). -/
structure StepResult where
  state : State
  pushed : List PushedRec
  data : BitInput
  frames : List Frame
deriving DecidableEq

/-- `Decoder::parse_slice`: one dispatch step on the descriptor at `idx` of
`descs`.  For F=1 with Y=0 the source reads the counter element at
`raw[idx + 1]` with an unchecked index — when no such descriptor exists the
program panics, modelled as the `crash` outcome.  The body slice bound is
checked (`ProgramTruncated`-style `ParseError`), the layout compilation is
attempted, and either a `CompiledArray` or a `Repeat` frame is pushed after
the continuation `Slice`. -/
def parse_slice (refT : Int → Int → Int) (cache : Cache) (d : FXY) (idx : Nat)
    (descs : List FXY) (st : State) (data : BitInput) : Except Err StepResult :=
  if d.f = 0 then
    match cache.lookup_b_descriptor d with
    | some e =>
      match evalute refT st data e with
      | .error er => .error er
      | .ok (v, data') =>
        .ok ⟨clearOneShot st, [⟨e.element_name_en, e.bufr_unit, v⟩], data',
          [.slice descs (idx + 1)]⟩
    | none => .error .parse
  else if d.f = 1 then
    let x := toUsize d.x
    let y0 := toUsize d.y
    let delayRepeat := y0 = 0
    let counted : Except Err (Nat × BitInput) :=
      if delayRepeat then
        match descs[idx + 1]? with
        | none => .error .crash
        | some countDes => parse_usize refT cache st countDes data
      else .ok (y0, data)
    match counted with
    | .error er => .error er
    | .ok (y, data') =>
      let bodyStart := if delayRepeat then idx + 2 else idx + 1
      let bodyEnd := bodyStart + x
      if bodyEnd > descs.length then .error .parse
      else
        let body := (descs.drop bodyStart).take x
        match try_compile_array_layout refT cache body y with
        | .error er => .error er
        | .ok layoutOpt =>
          let frame :=
            match layoutOpt with
            | some layout => Frame.compiledArray layout y
            | none => Frame.rep body y 0
          .ok ⟨st, [], data', [.slice descs bodyEnd, frame]⟩
  else if d.f = 2 then
    match deal_with_operator st d.x d.y data with
    | .error er => .error er
    | .ok (st', pushed, data') => .ok ⟨st', pushed, data', [.slice descs (idx + 1)]⟩
  else if d.f = 3 then
    match cache.lookup_d_descriptor d with
    | some seq =>
      .ok ⟨st, [], data, [.slice descs (idx + 1), .slice seq.fxy_chain 0]⟩
    | none => .error .parse
  else .error .parse

/-- nom's `be_u8` over a byte list: one octet or a parse failure. -/
def beU8 : List Nat → Except Err (Nat × List Nat)
  | [] => .error .parse
  | b :: rest => .ok (b, rest)

/-- nom's `be_u16`. -/
def beU16 (l : List Nat) : Except Err (Nat × List Nat) :=
  if l.length < 2 then .error .parse
  else .ok ((l.getD 0 0) <<< 8 ||| l.getD 1 0, l.drop 2)

/-- nom's `be_u24`. -/
def beU24 (l : List Nat) : Except Err (Nat × List Nat) :=
  if l.length < 3 then .error .parse
  else .ok ((l.getD 0 0) <<< 16 ||| (l.getD 1 0) <<< 8 ||| l.getD 2 0, l.drop 3)

/-- nom's `take(n)`. -/
def takeN (n : Nat) (l : List Nat) : Except Err (List Nat × List Nat) :=
  if l.length < n then .error .parse
  else .ok (l.take n, l.drop n)

/-- nom's `tag("BUFR")`. -/
def tagBUFR (l : List Nat) : Except Err (List Nat) :=
  if l.take 4 = [66, 85, 70, 82] then .ok (l.drop 4) else .error .parse

/-- nom's `tag("7777")`. -/
def tag7777 (l : List Nat) : Except Err (List Nat) :=
  if l.take 4 = [55, 55, 55, 55] then .ok (l.drop 4) else .error .parse

/-- Section 0 of a message: total length (u24 BE) and edition octet. -/
structure Section0 where
  total_length : Nat
  version : Nat
deriving DecidableEq

/-- `parse_section0` (identical in `versions/mod.rs` and `v4.rs`): the "BUFR"
tag, the 24-bit total length, and the edition octet. -/
def parseSection0 (input : List Nat) : Except Err (List Nat × Section0) :=
  match tagBUFR input with
  | .error er => .error er
  | .ok rest =>
    match beU24 rest with
    | .error er => .error er
    | .ok (totalLength, rest') =>
      match beU8 rest' with
      | .error er => .error er
      | .ok (edition, rest'') => .ok (rest'', ⟨totalLength, edition⟩)

/-- Section 1 of an edition-4 message. -/
structure Section1V4 where
  length : Nat
  master_table : Nat
  centre : Nat
  subcentre : Nat
  update_sequence_number : Nat
  optional_section_present : Bool
  data_category : Nat
  international_data_subcategory : Nat
  local_subcategory : Nat
  master_table_version : Nat
  local_table_version : Nat
  year : Nat
  month : Nat
  day : Nat
  hour : Nat
  minute : Nat
  second : Nat
  local_use : List Nat
deriving DecidableEq

/-- `v4::parse_section1`: 22 fixed octets after the length (which must be at
least 22), plus `length − 22` local-use octets. -/
def parseSection1V4 (input : List Nat) : Except Err (List Nat × Section1V4) :=
  match beU24 input with
  | .error er => .error er
  | .ok (length, r0) =>
    if length < 22 then .error .parse
    else
      if r0.length < 19 then .error .parse
      else
        let masterTable := r0.getD 0 0
        let centre := (r0.getD 1 0) <<< 8 ||| r0.getD 2 0
        let subcentre := (r0.getD 3 0) <<< 8 ||| r0.getD 4 0
        let updateSeq := r0.getD 5 0
        let flags := r0.getD 6 0
        let r1 := r0.drop 7
        match takeN (length - 22) (r1.drop 12) with
        | .error er => .error er
        | .ok (localBytes, rest) =>
          .ok (rest,
            ⟨length, masterTable, centre, subcentre, updateSeq, flags &&& 128 ≠ 0,
              r1.getD 0 0, r1.getD 1 0, r1.getD 2 0, r1.getD 3 0, r1.getD 4 0,
              (r1.getD 5 0) <<< 8 ||| r1.getD 6 0, r1.getD 7 0, r1.getD 8 0, r1.getD 9 0,
              r1.getD 10 0, r1.getD 11 0, localBytes⟩)

/-- Section 1 of an edition-2 message. -/
structure Section1V2 where
  length : Nat
  master_table : Nat
  subcentre : Nat
  centre : Nat
  update_sequence_number : Nat
  optional_section_present : Bool
  data_category : Nat
  data_subcategory : Nat
  master_table_version : Nat
  local_table_version : Nat
  year : Nat
  month : Nat
  day : Nat
  hour : Nat
  minute : Nat
deriving DecidableEq

/-- `v2::parse_section1`: 17 fixed octets after the length (which must be at
least 17), plus `length − 17` skipped local-use octets. -/
def parseSection1V2 (input : List Nat) : Except Err (List Nat × Section1V2) :=
  match beU24 input with
  | .error er => .error er
  | .ok (length, r0) =>
    if length < 17 then .error .parse
    else
      if r0.length < 14 then .error .parse
      else
        match takeN (length - 17) (r0.drop 14) with
        | .error er => .error er
        | .ok (_, rest) =>
          .ok (rest,
            ⟨length, r0.getD 0 0, r0.getD 1 0, r0.getD 2 0, r0.getD 3 0,
              (r0.getD 4 0) &&& 128 ≠ 0, r0.getD 5 0, r0.getD 6 0, r0.getD 7 0,
              r0.getD 8 0, r0.getD 9 0, r0.getD 10 0, r0.getD 11 0, r0.getD 12 0,
              r0.getD 13 0⟩)

/-- Section 2 (optional): length, one skipped octet, `length − 4` opaque
bytes.  The `length − 4` is an unchecked `usize` subtraction, so a declared
length below 4 aborts a debug build; the model reports `crash` there. -/
structure Section2 where
  length : Nat
  data : List Nat
deriving DecidableEq

/-- `parse_section2`. -/
def parseSection2 (input : List Nat) : Except Err (List Nat × Section2) :=
  match beU24 input with
  | .error er => .error er
  | .ok (length, r0) =>
    if length < 4 then .error .crash
    else
      match beU8 r0 with
      | .error er => .error er
      | .ok (_, r1) =>
        match takeN (length - 4) r1 with
        | .error er => .error er
        | .ok (data, rest) => .ok (rest, ⟨length, data⟩)

/-- Section 3: length, one skipped octet, subset count, flags octet, and
`length − 7` descriptor bytes (`length − 7` unchecked, as in Section 2). -/
structure Section3 where
  length : Nat
  number_of_subsets : Nat
  is_observation : Bool
  is_compressed : Bool
  data : List Nat
deriving DecidableEq

/-- `parse_section3`. -/
def parseSection3 (input : List Nat) : Except Err (List Nat × Section3) :=
  match beU24 input with
  | .error er => .error er
  | .ok (length, r0) =>
    if length < 7 then .error .crash
    else
      if r0.length < 4 then .error .parse
      else
        let numberOfSubsets := (r0.getD 1 0) <<< 8 ||| r0.getD 2 0
        let flags := r0.getD 3 0
        match takeN (length - 7) (r0.drop 4) with
        | .error er => .error er
        | .ok (data, rest) =>
          .ok (rest, ⟨length, numberOfSubsets, flags &&& 128 ≠ 0, flags &&& 64 ≠ 0, data⟩)

/-- Section 4: length, one skipped octet, `length − 4` payload bytes. -/
structure Section4 where
  length : Nat
  data : List Nat
deriving DecidableEq

/-- `parse_section4`. -/
def parseSection4 (input : List Nat) : Except Err (List Nat × Section4) :=
  match beU24 input with
  | .error er => .error er
  | .ok (length, r0) =>
    if length < 4 then .error .crash
    else
      match beU8 r0 with
      | .error er => .error er
      | .ok (_, r1) =>
        match takeN (length - 4) r1 with
        | .error er => .error er
        | .ok (data, rest) => .ok (rest, ⟨length, data⟩)

/-- An edition-4 message (`BUFRMessageV4`). -/
structure MessageV4 where
  section0 : Section0
  section1 : Section1V4
  section2 : Option Section2
  section3 : Section3
  section4 : Section4
deriving DecidableEq

/-- `BUFRMessageV4::parse`: sections 0 through 5 in order, section 2 present
exactly when the section-1 flag says so. -/
def parseV4 (input : List Nat) : Except Err MessageV4 :=
  match parseSection0 input with
  | .error er => .error er
  | .ok (r0, section0) =>
    match parseSection1V4 r0 with
    | .error er => .error er
    | .ok (r1, section1) =>
      let afterS2 : Except Err (List Nat × Option Section2) :=
        if section1.optional_section_present then
          match parseSection2 r1 with
          | .error er => .error er
          | .ok (r2, s2) => .ok (r2, some s2)
        else .ok (r1, none)
      match afterS2 with
      | .error er => .error er
      | .ok (r2, section2) =>
        match parseSection3 r2 with
        | .error er => .error er
        | .ok (r3, section3) =>
          match parseSection4 r3 with
          | .error er => .error er
          | .ok (r4, section4) =>
            match tag7777 r4 with
            | .error er => .error er
            | .ok _ => .ok ⟨section0, section1, section2, section3, section4⟩

/-- An edition-2 message (`BUFRMessageV2`). -/
structure MessageV2 where
  section1 : Section1V2
  section2 : Option Section2
  section3 : Section3
  section4 : Section4
deriving DecidableEq

/-- `BUFRMessageV2::parse`. -/
def parseV2 (input : List Nat) : Except Err MessageV2 :=
  match parseSection0 input with
  | .error er => .error er
  | .ok (r0, _) =>
    match parseSection1V2 r0 with
    | .error er => .error er
    | .ok (r1, section1) =>
      let afterS2 : Except Err (List Nat × Option Section2) :=
        if section1.optional_section_present then
          match parseSection2 r1 with
          | .error er => .error er
          | .ok (r2, s2) => .ok (r2, some s2)
        else .ok (r1, none)
      match afterS2 with
      | .error er => .error er
      | .ok (r2, section2) =>
        match parseSection3 r2 with
        | .error er => .error er
        | .ok (r3, section3) =>
          match parseSection4 r3 with
          | .error er => .error er
          | .ok (r4, section4) =>
            match tag7777 r4 with
            | .error er => .error er
            | .ok _ => .ok ⟨section1, section2, section3, section4⟩

/-- The version-dispatched message (`BUFRMessage` of `versions/mod.rs`). -/
inductive BUFRMessage where
  | v2 (m : MessageV2)
  | v4 (m : MessageV4)
deriving DecidableEq

/-- `BUFRMessage::parse`: parse section 0, then dispatch on the edition
octet; any edition other than 2 or 4 is `Error::UnsupportedVersion`. -/
def BUFRMessage.parse (input : List Nat) : Except Err BUFRMessage :=
  match parseSection0 input with
  | .error er => .error er
  | .ok (_, section0) =>
    if section0.version = 2 then
      match parseV2 input with
      | .error er => .error er
      | .ok m => .ok (.v2 m)
    else if section0.version = 4 then
      match parseV4 input with
      | .error er => .error er
      | .ok m => .ok (.v4 m)
    else .error (.unsupportedVersion section0.version)

/-- `find_bufr_offsets` of `parser.rs`: every position where the four-octet
marker "BUFR" occurs.  The source scans in 8192-byte windows with a
three-byte carry-over; that sliding scheme enumerates exactly the positions
whose four-byte window matches, which is what this definition lists
directly. -/
def findBufrOffsets (bs : List Nat) : List Nat :=
  (List.range bs.length).filter (fun i => ((bs.drop i).take 4 = [66, 85, 70, 82]))

/-- The 24-bit total length declared at octets 5–7 of the message starting at
`off`. -/
def declaredLen (bs : List Nat) (off : Nat) : Nat :=
  ((bs.drop off).getD 4 0) <<< 16 ||| ((bs.drop off).getD 5 0) <<< 8 ||| (bs.drop off).getD 6 0

/-- `read_message_at_offset`: read the eight section-0 octets, take the
declared 24-bit total length, and re-read that many bytes from the offset;
either `read_exact` failing (too few bytes remain) is an `std::io`
unexpected-EOF error. -/
def readMessageAtOffset (bs : List Nat) (off : Nat) : Except Err (List Nat) :=
  if bs.length < off + 8 then .error .ioEof
  else
    if bs.length < off + declaredLen bs off then .error .ioEof
    else .ok ((bs.drop off).take (declaredLen bs off))

/-- `parse_inner`: for every marker offset, try to read and parse the
message; on either failure the source prints to stderr and continues, so the
failed message is simply absent from the returned file and the function
always returns `Ok`. -/
def parseInner (bs : List Nat) : Except Err (List BUFRMessage) :=
  .ok ((findBufrOffsets bs).foldl
    (fun acc off =>
      match readMessageAtOffset bs off with
      | .error _ => acc
      | .ok messageData =>
        match BUFRMessage.parse messageData with
        | .ok m => acc ++ [m]
        | .error _ => acc)
    [])

/-- The numeric content of an interpreted value, in array-cell form: `Missing`
is represented by the `MISS_VAL` sentinel (`none`), a number by its defining
triple.  Strings cannot arise in an array-eligible body. -/
def valCell : Value → AVal
  | .missing => none
  | .number raw reference scale => some (raw, reference, scale)
  | .str _ => none

/-- Whether every record of an interpreted body pass carries the same name
and unit as the corresponding compiled field. -/
def rowNamedB (fields : List FieldSpec) (row : List PushedRec) : Bool :=
  row.map (fun p => (p.name, p.unit)) == fields.map (fun f => (f.name, f.unit))

/-- Agreement of an interpreted `Repeat` decode with a `CompiledArray`
decode: both fail together with the same error, or both succeed with
identical final bit cursors, matching names and units, and the compiled
arrays equal to the transposed interpreted values (with `Missing` as the
`MISS_VAL` cell). -/
def runsAgreeB (fields : List FieldSpec)
    (a : Except Err (List (List PushedRec) × State × BitInput))
    (b : Except Err (List ArrayRec × BitInput)) : Bool :=
  match a, b with
  | .error e1, .error e2 => e1 == e2
  | .ok (rows, _, d1), .ok (outs, d2) =>
    d1 == d2 && rows.all (fun row => rowNamedB fields row) &&
      outs == colsOutput fields (rows.map (fun r => r.map (fun p => valCell p.value)))
  | _, _ => false

/-- The compiler state left after walking a body from the empty state (when
compilation reaches the end of the body). -/
def compileFinalState (refT : Int → Int → Int) (cache : Cache) (body : List FXY) :
    Option State :=
  match compileBody refT cache State.empty body with
  | .ok (some (_, _, csF)) => some csF
  | _ => none

/-- Side conditions under which the compiled effective parameters coincide
with the interpreter's: at every element of the body, the effective width is
not 64 (the two paths build different missing masks at width 64) and the
2-02 and 2-07 slots are not simultaneously armed (`State::scale` discards the
2-02 contribution, `compute_effective_scale` keeps it).  The walk mirrors the
compiler's state evolution. -/
def safeBody (cache : Cache) : State → List FXY → Bool
  | _, [] => true
  | cs, d :: rest =>
    if d.f = 0 then
      match cache.lookup_b_descriptor d with
      | none => false
      | some e =>
        decide (compute_effective_width cs e ≠ 64) &&
          !(cs.common_scale.isSome && cs.temp_operator.isSome) &&
          safeBody cache (clearOneShot cs) rest
    else if d.f = 2 then safeBody cache (applyOperatorToCompiler cs d.x d.y).2 rest
    else false

/-- Modelled from the spec: the effective-scale formula of §4.8, sentence 2 —
`scale = base_scale + (128 − common_scale if set else 0) + temp_operator (if
set)`; the repository has no second implementation of this formula, the
sentence is the specification side of the comparison. -/
def specEffectiveScale (st : State) (e : BTableEntry) : Int :=
  e.bufr_scale +
    (match st.common_scale with
     | some c => 128 - c
     | none => 0) +
    (match st.temp_operator with
     | some t => t
     | none => 0)

/-- Modelled from the spec: the bits of one `(value, width)` pair, most
significant bit first (P3's big-endian MSB packing; the repository has no
encoder). -/
def bitsOfValue (v w : Nat) : List Bool :=
  (List.range w).map (fun i => v.testBit (w - 1 - i))

/-- Modelled from the spec: concatenated packing of a sequence of
`(value, width)` pairs. -/
def packPairs (ps : List (Nat × Nat)) : List Bool :=
  ps.foldr (fun p acc => bitsOfValue p.1 p.2 ++ acc) []

/-- One byte from up to eight packed bits, MSB first. -/
def byteOfBits (bits : List Bool) : Nat :=
  bits.foldl (fun a b => 2 * a + (if b then 1 else 0)) 0

/-- Modelled from the spec: a packed bit sequence chunked into bytes, the
final partial byte zero-padded on the low side. -/
def bytesOfBitsGo : Nat → List Bool → List Nat
  | 0, _ => []
  | _, [] => []
  | fuel + 1, b :: rest =>
    byteOfBits (((b :: rest).take 8) ++ List.replicate (8 - ((b :: rest).take 8).length) false)
      :: bytesOfBitsGo fuel (rest.drop 7)

/-- Chunking entry point (the fuel is the bit count, ample since every chunk
consumes at least one bit). -/
def bytesOfBits (bits : List Bool) : List Nat := bytesOfBitsGo bits.length bits

/-! ### Concrete fixtures used by witnesses and counterexamples -/

/-- A concrete stand-in for the shared single-precision reference transform
(`refT`); witnesses may pick any function since the theorems quantify over
it. -/
def refTc : Int → Int → Int := fun v _ => v

/-- Table B entry 0-01-001 (8-bit numeric element). -/
def e01 : BTableEntry := ⟨⟨0, 1, 1⟩, "WMO BLOCK NUMBER", "Numeric", 0, 0, 8⟩

/-- Table B entry 0-31-001 (8-bit delayed replication factor). -/
def e31 : BTableEntry :=
  ⟨⟨0, 31, 1⟩, "DELAYED DESCRIPTOR REPLICATION FACTOR", "Numeric", 0, 0, 8⟩

/-- Table B entry 0-02-001 with a 64-bit width. -/
def e64 : BTableEntry := ⟨⟨0, 2, 1⟩, "WIDE ELEMENT", "Numeric", 0, 0, 64⟩

/-- A concrete MPHF over the three fixture keys. -/
def mphfC : FXY → Option Nat := fun k =>
  if k = ⟨0, 1, 1⟩ then some 0
  else if k = ⟨0, 31, 1⟩ then some 1
  else if k = ⟨0, 2, 1⟩ then some 2
  else none

/-- A concrete catalog cache holding the three fixture entries and no local
tables. -/
def cacheC : Cache :=
  ⟨⟨[e01, e31, e64], mphfC⟩, ⟨[], fun _ => none⟩, none, none⟩

/-- Compiled layout of the one-element body `[0-01-001]`. -/
def layoutA : CompiledLayout := ⟨[⟨⟨0, 1, 1⟩, "WMO BLOCK NUMBER", "Numeric", 8, 0, 0, 255⟩], 8⟩

/-- Compiled layout of the body `[2-02-130, 2-07-001, 0-01-001, 2-02-000]`. -/
def layoutC18 : CompiledLayout :=
  ⟨[⟨⟨0, 1, 1⟩, "WMO BLOCK NUMBER", "Numeric", 18, -1, 0, (1 <<< 18) - 1⟩], 18⟩

/-- Compiled layout of the one-element body `[0-02-001]` (64-bit width). -/
def layoutD64 : CompiledLayout := ⟨[⟨⟨0, 2, 1⟩, "WIDE ELEMENT", "Numeric", 64, 0, 0, U64 - 1⟩], 64⟩

/-- Operator state with an armed 2-06 one-shot width of 4 bits. -/
def stLocal4 : State := ⟨none, none, none, none, some 4, none⟩

/-- Operator state used by the C2 counterexample: 2-02-130 and 2-07-001 both
active. -/
def stC2 : State := ⟨some 130, none, none, none, none, some 1⟩

/-- A non-exempt Table B entry with base scale 5. -/
def eC2 : BTableEntry := ⟨⟨0, 12, 1⟩, "TEMPERATURE", "K", 5, 0, 12⟩

/-- Operator state with an armed (trivial) 2-07 operator. -/
def stTemp0 : State := ⟨none, none, none, none, none, some 0⟩

/-- Descriptor program: delayed replication whose counter is 0-31-001 and
whose body is `[0-01-001]`. -/
def descsC4 : List FXY := [⟨1, 1, 0⟩, ⟨0, 31, 1⟩, ⟨0, 1, 1⟩]

/-- Eight bytes of ones (an all-ones 64-bit field). -/
def dataFF : BitInput := ⟨List.replicate 8 255, 0⟩

/-- Eight zero bytes (an all-zero 64-bit field). -/
def dataZ8 : BitInput := ⟨List.replicate 8 0, 0⟩

/-- The nine bytes produced by packing `(0, 1 bit)` then `(1, 64 bits)`. -/
def c5Bytes : List Nat := [0, 0, 0, 0, 0, 0, 0, 0, 128]

/-- A byte stream whose only "BUFR" match declares a 24-bit total length
(16777215) far past the end of the stream. -/
def c8Bytes : List Nat := [66, 85, 70, 82, 255, 255, 255, 4]

/-- A minimal section-0 image with edition octet 3. -/
def c9Bytes : List Nat := [66, 85, 70, 82, 0, 0, 8, 3]

end RBufr

deriving instance DecidableEq for Except

namespace RBufr

/-! ## Theorems -/

/-- Two's-complement wrap is the identity on in-range values. -/
theorem wrap32_eq_self {n : Int} (h1 : -2 ^ 31 ≤ n) (h2 : n < 2 ^ 31) : wrap32 n = n := by
  unfold wrap32
  rw [Int.emod_eq_of_lt (by linarith) (by linarith)]
  ring

/-- Any entry the local-then-master B lookup returns has passed the equality
filter, so its key is the query key. -/
theorem lookup_local_b_fxy {c : Cache} {k : FXY} {e : BTableEntry}
    (h : c.lookup_local_b k = some e) : e.fxy = k := by
  unfold Cache.lookup_local_b at h
  split at h
  · split at h
    · cases h
      assumption
    · cases h
  · cases h

theorem lookup_master_b_fxy {c : Cache} {k : FXY} {e : BTableEntry}
    (h : c.lookup_master_b k = some e) : e.fxy = k := by
  unfold Cache.lookup_master_b at h
  split at h
  · split at h
    · cases h
      assumption
    · cases h
  · cases h

/-- Any entry the local-then-master B lookup returns has passed the equality
filter, so its key is the query key. -/
theorem lookup_b_fxy {c : Cache} {k : FXY} {e : BTableEntry}
    (h : c.lookup_b_descriptor k = some e) : e.fxy = k := by
  unfold Cache.lookup_b_descriptor at h
  split at h
  · cases h
    exact lookup_local_b_fxy (by assumption)
  · exact lookup_master_b_fxy h

/-- C6: for every catalog and every query key (present or not), the lookup
the decoder performs returns `some entry` only if the stored entry's FXY
equals the query key, whatever index function the MPHF is — so a foreign key
is never returned as a hit.  (The equality filter lives in the decoder's
`Cache::lookup_*_descriptor` wrappers; the raw `BufrTableMph::get` below them
is unfiltered.) -/
theorem c6_catalog_lookup_sound (c : Cache) (k : FXY) (e : BTableEntry)
    (h : c.lookup_b_descriptor k = some e) : e.fxy = k :=
  lookup_b_fxy h

theorem c6_catalog_lookup_sound_witness :
    cacheC.lookup_b_descriptor ⟨0, 1, 1⟩ = some e01 ∧ e01.fxy = (⟨0, 1, 1⟩ : FXY) :=
  ⟨by decide, c6_catalog_lookup_sound cacheC ⟨0, 1, 1⟩ e01 (by decide)⟩

/-- C10: an F=2 operator whose X is outside {1,2,3,5,6,7,8} falls through the
`_ => {}` arm of `deal_with_operator`: the call returns `Ok`, consumes no
bits, pushes nothing, and leaves every slot of the operator state
unchanged. -/
theorem c10_unknown_operator_noop (st : State) (x y : Int) (data : BitInput)
    (h1 : x ≠ 1) (h2 : x ≠ 2) (h3 : x ≠ 3) (h5 : x ≠ 5) (h6 : x ≠ 6) (h7 : x ≠ 7)
    (h8 : x ≠ 8) :
    deal_with_operator st x y data = .ok (st, [], data) := by
  unfold deal_with_operator
  simp [h1, h2, h3, h5, h6, h7, h8]

theorem c10_unknown_operator_noop_witness :
    deal_with_operator stC2 4 9 ⟨[1, 2], 3⟩ = .ok (stC2, [], ⟨[1, 2], 3⟩) :=
  c10_unknown_operator_noop stC2 4 9 ⟨[1, 2], 3⟩ (by decide) (by decide) (by decide)
    (by decide) (by decide) (by decide) (by decide)

/-- C9: when section 0 parses but the edition octet is neither 2 nor 4,
`BUFRMessage::parse` returns `UnsupportedVersion` carrying that edition, and
no message. -/
theorem c9_unsupported_edition (input rest : List Nat) (s0 : Section0)
    (h : parseSection0 input = .ok (rest, s0)) (h2 : s0.version ≠ 2) (h4 : s0.version ≠ 4) :
    BUFRMessage.parse input = .error (.unsupportedVersion s0.version) := by
  unfold BUFRMessage.parse
  rw [h]
  simp [h2, h4]

theorem c9_unsupported_edition_witness :
    parseSection0 c9Bytes = .ok ([], ⟨8, 3⟩) ∧
      BUFRMessage.parse c9Bytes = .error (.unsupportedVersion 3) :=
  ⟨by decide, c9_unsupported_edition c9Bytes [] ⟨8, 3⟩ (by decide) (by decide) (by decide)⟩

/-- C2 counterexample: with 2-02-130 and 2-07-001 simultaneously active on a
non-exempt element of base scale 5, `State::scale` returns `5 + 1 = 6`,
whereas the claimed formula `base + (128 − common) + temp` gives
`5 + (−2) + 1 = 4`: the 2-02 contribution is discarded, contradicting the
claim. -/
theorem c2_scale_counterexample :
    no_change eC2 = false ∧ State.scale stC2 eC2 = 6 ∧ specEffectiveScale stC2 eC2 = 4 ∧
      State.scale stC2 eC2 ≠ specEffectiveScale stC2 eC2 := by decide

/-- C2, amended: for a non-exempt element (within `i32` range), the
interpreter's effective scale is `base + temp` whenever a 2-07 operator is
armed — the 2-02 contribution is discarded in that case — and
`base + (128 − common_scale)` otherwise. -/
theorem c2_scale_amended (st : State) (e : BTableEntry) (h : no_change e = false)
    (hs : -2 ^ 20 ≤ e.bufr_scale ∧ e.bufr_scale ≤ 2 ^ 20)
    (ht : ∀ t, st.temp_operator = some t → -2 ^ 20 ≤ t ∧ t ≤ 2 ^ 20)
    (hc : ∀ c, st.common_scale = some c → -2 ^ 20 ≤ c ∧ c ≤ 2 ^ 20) :
    State.scale st e =
      match st.temp_operator with
      | some t => e.bufr_scale + t
      | none =>
        match st.common_scale with
        | some c => e.bufr_scale + (128 - c)
        | none => e.bufr_scale := by
  unfold State.scale
  rw [if_neg (by simp [h])]
  cases hto : st.temp_operator with
  | some t =>
    have hb := ht t hto
    simp only
    exact wrap32_eq_self (by linarith [hb.1, hs.1]) (by linarith [hb.2, hs.2])
  | none =>
    cases hco : st.common_scale with
    | some c =>
      have hb := hc c hco
      simp only
      rw [show wrap32 (128 - c) = 128 - c from
          wrap32_eq_self (by linarith [hb.2]) (by linarith [hb.1])]
      exact wrap32_eq_self (by linarith [hb.2, hs.1]) (by linarith [hb.1, hs.2])
    | none => simp only

theorem c2_scale_amended_witness :
    no_change eC2 = false ∧
      State.scale ⟨some 130, none, none, none, none, none⟩ eC2 = 5 + (128 - 130) :=
  ⟨by decide,
    by
      have hh := c2_scale_amended ⟨some 130, none, none, none, none, none⟩ eC2 (by decide)
        (by constructor <;> decide)
        (by intro t htt; cases htt)
        (by intro c hcc; cases hcc; constructor <;> decide)
      rw [hh]
      decide⟩

/-- C3, failing input: at effective width 64 the interpreter's missing mask
`(1 << 64) − 1` wraps to 0 in a release build (a debug build aborts), so the
all-ones 64-bit field decodes to `Number(2^64 − 1)` instead of `Missing`,
while an all-zero field — not all-ones at all — decodes to `Missing`.  (The
compiled-array path special-cases width 64 correctly, which is the claimed
behaviour.) -/
theorem c3_missing_width64_bug :
    evalute refTc State.empty dataFF e64 = .ok (.number (2 ^ 64 - 1) 0 0, ⟨[], 0⟩) ∧
      evalute refTc State.empty dataZ8 e64 = .ok (.missing, ⟨[], 0⟩) := by decide

/-- C5, failing input: packing `(0, width 1)` then `(1, width 64)` big-endian
MSB-first yields the nine bytes `[0,…,0, 0x80]`; reading back a 1-bit field
and then a 64-bit field returns 0 and then 0 — not the packed value 1.  The
second read takes the nine-byte unaligned path whose shift amount
`bits_in_buffer − bit_offset − nbits = 64 − 1 − 64` underflows (wrapping in
release builds, aborting in debug builds), so the round-trip fails. -/
theorem c5_bit_roundtrip_bug :
    bytesOfBits (packPairs [(0, 1), (1, 64)]) = c5Bytes ∧
      getArbitaryBits ⟨c5Bytes, 0⟩ 1 = some (0, ⟨c5Bytes, 1⟩) ∧
      getArbitaryBits ⟨c5Bytes, 1⟩ 64 = some (0, ⟨[128], 1⟩) := by decide

/-- C7, failing input: a delayed replication descriptor `1-01-000` standing
last in its program makes `parse_slice` read the counter at the unchecked
index `idx + 1`, which is past the end of the descriptor slice: the program
panics (the `crash` outcome) instead of returning a typed error. -/
theorem c7_delayed_counter_oob :
    parse_slice refTc cacheC ⟨1, 1, 0⟩ 0 [⟨1, 1, 0⟩] State.empty ⟨[], 0⟩ = .error .crash := by
  decide

/-- C8 counterexample: the stream `"BUFR" ++ [0xFF,0xFF,0xFF, 4]` has exactly
one marker match, whose declared 24-bit length extends far past the end;
`parse_inner` returns `Ok` with no messages — the typed truncation error is
not surfaced to the caller, the message is just omitted. -/
theorem c8_truncation_counterexample :
    findBufrOffsets c8Bytes = [0] ∧ readMessageAtOffset c8Bytes 0 = .error .ioEof ∧
      parseInner c8Bytes = .ok [] := by decide

/-- C8, amended: a tail match whose declared total length extends beyond the
stream does produce a typed I/O error inside `read_message_at_offset`, but
`parse_inner` catches it, logs to stderr, and still returns `Ok` with that
message omitted from the result — the error never reaches the caller. -/
theorem c8_truncation_swallowed (bs : List Nat) (off : Nat)
    (hshort : bs.length < off + 8 ∨ bs.length < off + declaredLen bs off) :
    readMessageAtOffset bs off = .error .ioEof ∧ ∃ msgs, parseInner bs = .ok msgs := by
  constructor
  · unfold readMessageAtOffset
    rcases hshort with h | h
    · rw [if_pos h]
    · by_cases h8 : bs.length < off + 8
      · rw [if_pos h8]
      · rw [if_neg h8, if_pos h]
  · exact ⟨_, rfl⟩

theorem c8_truncation_swallowed_witness :
    (c8Bytes.length < 0 + 8 ∨ c8Bytes.length < 0 + declaredLen c8Bytes 0) ∧
      readMessageAtOffset c8Bytes 0 = .error .ioEof ∧ ∃ msgs, parseInner c8Bytes = .ok msgs :=
  ⟨by decide, c8_truncation_swallowed c8Bytes 0 (by decide)⟩

/-- C4 counterexample: a delayed replication step (`1-01-000`) whose counter
`0-31-001` is decoded through `parse_usize` succeeds while an armed 2-07
one-shot operator survives the counter decode — `parse_usize` takes the state
by shared reference and never clears the slots, contradicting the claim for
elements consumed as delayed-replication counters.  (`descsC4[1]` is the F=0
counter element actually decoded during this step.) -/
theorem c4_counter_not_cleared :
    (descsC4.getD 1 ⟨0, 0, 0⟩).f = 0 ∧
      (parse_slice refTc cacheC ⟨1, 1, 0⟩ 0 descsC4 stTemp0 ⟨[3, 1, 2, 3], 0⟩).toOption.map
          (fun r => r.state.temp_operator) =
        some (some 0) := by decide

/-- C4, amended: after an F=0 element descriptor is decoded through the
normal element path of `parse_slice`, both one-shot slots
(`local_data_width` and `temp_operator`) are `None`; the delayed-replication
counter path leaves them untouched. -/
theorem c4_oneshot_cleared (refT : Int → Int → Int) (cache : Cache) (d : FXY) (idx : Nat)
    (descs : List FXY) (st : State) (data : BitInput) (r : StepResult)
    (hf : d.f = 0) (h : parse_slice refT cache d idx descs st data = .ok r) :
    r.state.temp_operator = none ∧ r.state.local_data_width = none := by
  unfold parse_slice at h
  rw [if_pos hf] at h
  split at h
  · split at h
    · cases h
    · cases h
      exact ⟨rfl, rfl⟩
  · cases h

theorem c4_oneshot_cleared_witness :
    (⟨0, 1, 1⟩ : FXY).f = 0 ∧
      parse_slice refTc cacheC ⟨0, 1, 1⟩ 0 [⟨0, 1, 1⟩] stTemp0 ⟨[7], 0⟩ =
        .ok ⟨State.empty, [⟨"WMO BLOCK NUMBER", "Numeric", .number 7 0 0⟩], ⟨[], 0⟩,
          [.slice [⟨0, 1, 1⟩] 1]⟩ ∧
      State.empty.temp_operator = none ∧ State.empty.local_data_width = none :=
  ⟨by decide, by decide,
    c4_oneshot_cleared refTc cacheC ⟨0, 1, 1⟩ 0 [⟨0, 1, 1⟩] stTemp0 ⟨[7], 0⟩
      ⟨State.empty, [⟨"WMO BLOCK NUMBER", "Numeric", .number 7 0 0⟩], ⟨[], 0⟩,
        [.slice [⟨0, 1, 1⟩] 1]⟩ (by decide) (by decide)⟩

/-- The compiler's effective width restates the interpreter's width
computation verbatim. -/
theorem compute_width_eq (cs : State) (e : BTableEntry) :
    compute_effective_width cs e = State.datawidth cs e := rfl

/-- The compiler's effective reference restates the interpreter's. -/
theorem compute_ref_eq (refT : Int → Int → Int) (cs : State) (e : BTableEntry) :
    compute_effective_reference refT cs e = State.reference_value refT cs e := rfl

/-- The two scale computations agree whenever the 2-02 and 2-07 slots are not
both armed. -/
theorem compute_scale_eq (cs : State) (e : BTableEntry)
    (h : ¬(cs.common_scale.isSome ∧ cs.temp_operator.isSome)) :
    compute_effective_scale cs e = State.scale cs e := by
  unfold compute_effective_scale State.scale
  cases ht : cs.temp_operator with
  | none => rfl
  | some op =>
    have hcs : cs.common_scale = none := by
      cases hc : cs.common_scale with
      | none => rfl
      | some c => exact absurd ⟨by simp [hc], by simp [ht]⟩ h
    simp only [hcs, ht, ite_self]

/-- An operator the compiler accepts acts on the interpreter state exactly as
on the compiler state: same slot update, nothing pushed, no bits consumed. -/
theorem op_accept_deal (st : State) (x y : Int) (data : BitInput)
    (h : (applyOperatorToCompiler st x y).1 = true) :
    deal_with_operator st x y data = .ok ((applyOperatorToCompiler st x y).2, [], data) := by
  unfold applyOperatorToCompiler at h ⊢
  unfold deal_with_operator
  split_ifs at h ⊢ <;> simp_all

/-- One element decode: under the agreement side conditions, the fast path's
`readCell` on the compiled field spec computes exactly the interpreter's
`evalute` outcome (with `Missing` as the sentinel cell). -/
theorem evalute_cell (refT : Int → Int → Int) (cs : State) (e : BTableEntry) (d : FXY)
    (data : BitInput)
    (hud : ¬ e.bufr_unit = "CCITT IA5") (hfx : e.fxy = d) (hf : d.f = 0)
    (hw : compute_effective_width cs e ≠ 64)
    (hcl : ¬(cs.common_scale.isSome ∧ cs.temp_operator.isSome)) :
    readCell
        ⟨⟨d.f, d.x, d.y⟩, e.element_name_en, e.bufr_unit, compute_effective_width cs e,
          compute_effective_scale cs e, compute_effective_reference refT cs e,
          if compute_effective_width cs e = 64 then U64 - 1
          else (1 <<< (compute_effective_width cs e % 64)) - 1⟩ data =
      (evalute refT cs data e).map (fun p => (valCell p.1, p.2)) := by
  unfold readCell evalute
  rw [if_neg hud]
  rw [show compute_effective_width cs e = State.datawidth cs e from rfl] at hw ⊢
  dsimp only
  cases hr : getArbitaryBits data (State.datawidth cs e) with
  | none => rfl
  | some p =>
    obtain ⟨raw, d'⟩ := p
    dsimp only
    rw [if_neg hw]
    have hx : e.fxy.x = d.x := by rw [hfx]
    by_cases hcond : raw = (1 <<< (State.datawidth cs e % 64)) - 1 ∧ e.fxy.x ≠ 31
    · rw [if_pos hcond,
        if_pos (show raw = (1 <<< (State.datawidth cs e % 64)) - 1 ∧ ¬(d.f = 0 ∧ d.x = 31) from
          ⟨hcond.1, fun hh => hcond.2 (by rw [hx]; exact hh.2)⟩)]
      rfl
    · rw [if_neg hcond,
        if_neg (show ¬(raw = (1 <<< (State.datawidth cs e % 64)) - 1 ∧ ¬(d.f = 0 ∧ d.x = 31)) from
          fun hh => hcond ⟨hh.1, fun hx31 => hh.2 ⟨hf, by rw [← hx]; exact hx31⟩⟩)]
      show _ = Except.ok (valCell (Value.number raw (State.reference_value refT cs e)
        (State.scale cs e)), d')
      rw [show valCell (Value.number raw (State.reference_value refT cs e) (State.scale cs e)) =
        some (raw, State.reference_value refT cs e, State.scale cs e) from rfl]
      rw [compute_scale_eq cs e hcl, compute_ref_eq refT cs e]

/-- Unfolding of one interpreted element step. -/
theorem runBody_cons_elem (refT : Int → Int → Int) (cache : Cache) (d : FXY) (rest : List FXY)
    (st : State) (data : BitInput) (e : BTableEntry) (hf0 : d.f = 0)
    (hl : cache.lookup_b_descriptor d = some e) :
    runBody refT cache (d :: rest) st data =
      match evalute refT st data e with
      | .error er => .error er
      | .ok (v, data') =>
        match runBody refT cache rest (clearOneShot st) data' with
        | .error er => .error er
        | .ok (recs, stF, dataF) =>
          .ok (⟨e.element_name_en, e.bufr_unit, v⟩ :: recs, stF, dataF) := by
  show (if d.f = 0 then _ else _) = _
  rw [if_pos hf0, hl]

/-- Unfolding of one interpreted operator step. -/
theorem runBody_cons_op (refT : Int → Int → Int) (cache : Cache) (d : FXY) (rest : List FXY)
    (st : State) (data : BitInput) (hf0 : ¬ d.f = 0) (hf2 : d.f = 2) :
    runBody refT cache (d :: rest) st data =
      match deal_with_operator st d.x d.y data with
      | .error er => .error er
      | .ok (st', pushed, data') =>
        match runBody refT cache rest st' data' with
        | .error er => .error er
        | .ok (recs, stF, dataF) => .ok (pushed ++ recs, stF, dataF) := by
  show (if d.f = 0 then _ else _) = _
  rw [if_neg hf0, if_pos hf2]

/-- Unfolding of one fast-path field read. -/
theorem readRow_cons (f : FieldSpec) (fl : List FieldSpec) (data : BitInput) :
    readRow (f :: fl) data =
      match readCell f data with
      | .error er => .error er
      | .ok (cell, data') =>
        match readRow fl data' with
        | .error er => .error er
        | .ok (row, data'') => .ok (cell :: row, data'') := rfl

/-- One pass over a compiled body: the fast path's row read computes exactly
the interpreted pass (same error behaviour, same cells, same cursor), the
interpreted pass ends in the compiler's final state, and its records carry
the compiled names and units. -/
theorem runBody_agree (refT : Int → Int → Int) (cache : Cache) :
    ∀ (body : List FXY) (cs : State) (fields : List FieldSpec) (total : Nat) (csF : State)
      (data : BitInput),
      compileBody refT cache cs body = .ok (some (fields, total, csF)) →
      safeBody cache cs body = true →
      readRow fields data =
          (runBody refT cache body cs data).map
            (fun r => (r.1.map (fun p => valCell p.value), r.2.2)) ∧
        ∀ recs stF dataF, runBody refT cache body cs data = .ok (recs, stF, dataF) →
          stF = csF ∧ rowNamedB fields recs = true := by
  intro body
  induction body with
  | nil =>
    intro cs fields total csF data hcb hsf
    unfold compileBody at hcb
    cases hcb
    constructor
    · rfl
    · intro recs stF dataF h
      unfold runBody at h
      cases h
      exact ⟨rfl, rfl⟩
  | cons d rest ih =>
    intro cs fields total csF data hcb hsf
    unfold compileBody at hcb
    unfold safeBody at hsf
    by_cases hf0 : d.f = 0
    · rw [if_pos hf0] at hcb hsf
      cases hl : cache.lookup_b_descriptor d with
      | none =>
        rw [hl] at hcb
        cases hcb
      | some e =>
        rw [hl] at hcb hsf
        dsimp only at hcb hsf
        by_cases hud : e.bufr_unit = "CCITT IA5"
        · rw [if_pos hud] at hcb
          cases hcb
        · rw [if_neg hud] at hcb
          rw [show ({ cs with temp_operator := none, local_data_width := none } : State) =
            clearOneShot cs from rfl] at hcb
          cases hrest : compileBody refT cache (clearOneShot cs) rest with
          | error er => rw [hrest] at hcb; cases hcb
          | ok o =>
            cases o with
            | none => rw [hrest] at hcb; cases hcb
            | some t =>
              obtain ⟨fl, tb, csF'⟩ := t
              rw [hrest] at hcb
              cases hcb
              -- side conditions from safeBody
              rw [Bool.and_eq_true, Bool.and_eq_true] at hsf
              have hwne : compute_effective_width cs e ≠ 64 := by
                have := hsf.1.1
                simpa using this
              have hclash : ¬(cs.common_scale.isSome ∧ cs.temp_operator.isSome) := by
                have := hsf.1.2
                intro hh
                rw [hh.1, hh.2] at this
                simp at this
              have hsfrest : safeBody cache (clearOneShot cs) rest = true := hsf.2
              have hfx : e.fxy = d := lookup_b_fxy hl
              have hcell := evalute_cell refT cs e d data hud hfx hf0 hwne hclash
              have hstep := runBody_cons_elem refT cache d rest cs data e hf0 hl
              constructor
              · show readRow (_ :: fl) data = _
                rw [readRow_cons, hcell, hstep]
                cases hr : evalute refT cs data e with
                | error er => rfl
                | ok p =>
                  obtain ⟨v, d'⟩ := p
                  dsimp only [Except.map]
                  obtain ⟨ihEq, _⟩ := ih (clearOneShot cs) fl tb csF d' hrest hsfrest
                  rw [ihEq]
                  cases hrb : runBody refT cache rest (clearOneShot cs) d' with
                  | error er => rfl
                  | ok r3 =>
                    obtain ⟨recs3, st3, data3⟩ := r3
                    rfl
              · intro recs stF dataF h
                rw [hstep] at h
                cases hr : evalute refT cs data e with
                | error er => rw [hr] at h; cases h
                | ok p =>
                  obtain ⟨v, d'⟩ := p
                  rw [hr] at h
                  dsimp only at h
                  cases hrb : runBody refT cache rest (clearOneShot cs) d' with
                  | error er =>
                    rw [hrb] at h
                    cases h
                  | ok r3 =>
                    obtain ⟨recs3, st3, data3⟩ := r3
                    rw [hrb] at h
                    cases h
                    obtain ⟨_, ihPost⟩ := ih (clearOneShot cs) fl tb csF d' hrest hsfrest
                    obtain ⟨hst, hnames⟩ := ihPost _ _ _ hrb
                    refine ⟨hst, ?_⟩
                    unfold rowNamedB at hnames ⊢
                    simp only [List.map_cons, beq_iff_eq] at hnames ⊢
                    rw [hnames]
    · by_cases hf2 : d.f = 2
      · rw [if_neg hf0, if_pos hf2] at hcb hsf
        cases happ : applyOperatorToCompiler cs d.x d.y with
        | mk accept cs' =>
          rw [happ] at hcb hsf
          dsimp only at hcb hsf
          by_cases hacc : accept = true
          · rw [hacc] at hcb
            rw [if_pos rfl] at hcb
            obtain ⟨ihEq, ihPost⟩ := ih cs' fields total csF data hcb hsf
            have hdeal : deal_with_operator cs d.x d.y data = .ok (cs', [], data) := by
              have := op_accept_deal cs d.x d.y data (by rw [happ, hacc])
              rw [happ] at this
              exact this
            have hstep := runBody_cons_op refT cache d rest cs data hf0 hf2
            rw [hdeal] at hstep
            dsimp only at hstep
            constructor
            · rw [ihEq, hstep]
              cases hrb : runBody refT cache rest cs' data with
              | error er => rfl
              | ok r3 =>
                obtain ⟨recs3, st3, data3⟩ := r3
                rfl
            · intro recs stF dataF h
              rw [hstep] at h
              cases hrb : runBody refT cache rest cs' data with
              | error er => rw [hrb] at h; cases h
              | ok r3 =>
                obtain ⟨recs3, st3, data3⟩ := r3
                rw [hrb] at h
                cases h
                obtain ⟨hst, hnames⟩ := ihPost _ _ _ hrb
                exact ⟨hst, by rw [List.nil_append]; exact hnames⟩
          · have hacc' : accept = false := by
              cases accept
              · rfl
              · exact absurd rfl hacc
            rw [hacc'] at hcb
            rw [if_neg (by simp)] at hcb
            cases hcb
      · rw [if_neg hf0, if_neg hf2] at hcb
        by_cases h13 : d.f = 1 ∨ d.f = 3
        · rw [if_pos h13] at hcb
          cases hcb
        · rw [if_neg h13] at hcb
          cases hcb

/-- Unfolding of one fast-path repetition. -/
theorem readRows_succ (fields : List FieldSpec) (n : Nat) (data : BitInput) :
    readRows fields (n + 1) data =
      match readRow fields data with
      | .error er => .error er
      | .ok (row, data') =>
        match readRows fields n data' with
        | .error er => .error er
        | .ok (rows, data'') => .ok (row :: rows, data'') := rfl

/-- Unfolding of one interpreted repetition. -/
theorem runReps_succ (refT : Int → Int → Int) (cache : Cache) (body : List FXY) (n : Nat)
    (st : State) (data : BitInput) :
    runReps refT cache body (n + 1) st data =
      match runBody refT cache body st data with
      | .error er => .error er
      | .ok (recs, st', data') =>
        match runReps refT cache body n st' data' with
        | .error er => .error er
        | .ok (rows, stF, dataF) => .ok (recs :: rows, stF, dataF) := rfl

/-- Iterated passes: when the body compiles from the empty state back to the
empty state, the fast path's `times` row reads compute exactly the
interpreted `Repeat` decode, every interpreted pass starts (and the whole
decode ends) in the empty state, and every row is named like the fields. -/
theorem runReps_agree (refT : Int → Int → Int) (cache : Cache) (body : List FXY)
    (fields : List FieldSpec) (total : Nat)
    (hcb : compileBody refT cache State.empty body = .ok (some (fields, total, State.empty)))
    (hsf : safeBody cache State.empty body = true) :
    ∀ (y : Nat) (data : BitInput),
      readRows fields y data =
          (runReps refT cache body y State.empty data).map
            (fun r => (r.1.map (fun row => row.map (fun p => valCell p.value)), r.2.2)) ∧
        ∀ rows stF dataF, runReps refT cache body y State.empty data = .ok (rows, stF, dataF) →
          stF = State.empty ∧ rows.all (fun row => rowNamedB fields row) = true := by
  intro y
  induction y with
  | zero =>
    intro data
    constructor
    · rfl
    · intro rows stF dataF h
      cases h
      exact ⟨rfl, rfl⟩
  | succ n ihy =>
    intro data
    obtain ⟨bodyEq, bodyPost⟩ :=
      runBody_agree refT cache body State.empty fields total State.empty data hcb hsf
    cases hrb : runBody refT cache body State.empty data with
    | error er =>
      rw [hrb] at bodyEq
      constructor
      · rw [readRows_succ, bodyEq, runReps_succ, hrb]
        rfl
      · intro rows stF dataF h
        rw [runReps_succ, hrb] at h
        cases h
    | ok r =>
      obtain ⟨recs, st', data'⟩ := r
      obtain ⟨hst', hnamed⟩ := bodyPost recs st' data' hrb
      subst hst'
      rw [hrb] at bodyEq
      obtain ⟨ihEq, ihPost⟩ := ihy data'
      constructor
      · rw [readRows_succ, bodyEq, runReps_succ, hrb]
        dsimp only [Except.map]
        rw [ihEq]
        cases hrr : runReps refT cache body n State.empty data' with
        | error er => rfl
        | ok r2 =>
          obtain ⟨rows2, stF2, dataF2⟩ := r2
          rfl
      · intro rows stF dataF h
        rw [runReps_succ, hrb] at h
        dsimp only at h
        cases hrr : runReps refT cache body n State.empty data' with
        | error er => rw [hrr] at h; cases h
        | ok r2 =>
          obtain ⟨rows2, stF2, dataF2⟩ := r2
          rw [hrr] at h
          cases h
          obtain ⟨hstF, hall⟩ := ihPost _ _ _ hrr
          refine ⟨hstF, ?_⟩
          rw [List.all_cons, hnamed, hall]
          rfl

/-- C1, amended: the fast `CompiledArray` path and the interpreted `Repeat`
path agree — same error behaviour, identical final cursors, and compiled
arrays equal to the transposed interpreted values with `Missing` as the
`MISS_VAL` cell — for every eligible body and bit stream, PROVIDED the
operator state entering the replication is empty, the body walk returns the
compiler state to empty, and at every element the effective width is not 64
and the 2-02/2-07 slots are not both armed.  (The original claim's "every
operator state" fails: `try_compile_array_layout` compiles against a fresh
empty state and `parse_compiled_array` never consults the live state.) -/
theorem c1_compiled_vs_interpreted (refT : Int → Int → Int) (cache : Cache) (body : List FXY)
    (y : Nat) (layout : CompiledLayout) (data : BitInput)
    (hc : try_compile_array_layout refT cache body y = .ok (some layout))
    (hfin : compileFinalState refT cache body = some State.empty)
    (hsf : safeBody cache State.empty body = true) :
    runsAgreeB layout.fields (runReps refT cache body y State.empty data)
      (parse_compiled_array layout y data) = true := by
  unfold try_compile_array_layout at hc
  by_cases hy : y < 16
  · rw [if_pos hy] at hc
    cases hc
  · rw [if_neg hy] at hc
    cases hcbv : compileBody refT cache State.empty body with
    | error er => rw [hcbv] at hc; cases hc
    | ok o =>
      cases o with
      | none => rw [hcbv] at hc; cases hc
      | some t =>
        obtain ⟨fields, total, csF⟩ := t
        rw [hcbv] at hc
        unfold compileFinalState at hfin
        rw [hcbv] at hfin
        dsimp only at hfin
        cases hfin
        dsimp only at hc
        rw [if_neg (by decide)] at hc
        cases hc
        obtain ⟨repsEq, repsPost⟩ := runReps_agree refT cache body fields total hcbv hsf y data
        unfold parse_compiled_array
        dsimp only
        cases hrr : runReps refT cache body y State.empty data with
        | error er =>
          rw [hrr] at repsEq
          rw [repsEq]
          unfold runsAgreeB
          exact beq_self_eq_true er
        | ok r =>
          obtain ⟨rows, stF, dataF⟩ := r
          rw [hrr] at repsEq
          rw [repsEq]
          obtain ⟨hstF, hall⟩ := repsPost rows stF dataF hrr
          unfold runsAgreeB
          dsimp only [Except.map]
          rw [Bool.and_eq_true, Bool.and_eq_true]
          exact ⟨⟨beq_self_eq_true dataF, hall⟩, beq_self_eq_true _⟩

theorem c1_compiled_vs_interpreted_witness :
    try_compile_array_layout refTc cacheC [⟨0, 1, 1⟩] 16 = .ok (some layoutA) ∧
      compileFinalState refTc cacheC [⟨0, 1, 1⟩] = some State.empty ∧
      safeBody cacheC State.empty [⟨0, 1, 1⟩] = true ∧
      runsAgreeB layoutA.fields
        (runReps refTc cacheC [⟨0, 1, 1⟩] 16 State.empty ⟨List.replicate 16 7, 0⟩)
        (parse_compiled_array layoutA 16 ⟨List.replicate 16 7, 0⟩) = true :=
  ⟨by decide, by decide, by decide,
    c1_compiled_vs_interpreted refTc cacheC [⟨0, 1, 1⟩] 16 layoutA ⟨List.replicate 16 7, 0⟩
      (by decide) (by decide) (by decide)⟩

set_option maxRecDepth 8192 in
/-- C1 counterexample: four eligible replicated bodies (each accepted by
`try_compile_array_layout`) on which the fast path and the interpreted
`Repeat` decode produce different numeric outputs — (a) an armed 2-06
one-shot in the incoming operator state (the compiler ignores the live
state: first value `Missing` vs `240`); (b) a trailing 2-02 in the body
(repetitions after the first see the override, the compiled layout never
does: second value `100` vs `1`); (c) 2-02 and 2-07 both active at an
element, on a stream of nonzero raw values (every raw is 1028, the
interpreter's scale is +1 and the compiled scale −1, so the decoded numbers
are `1028·10⁻¹ = 102.8` interpreted vs `1028·10¹ = 10280` compiled — shown
below on the exact rationals the float expressions evaluate); (d) an element
of width 64 (missing masks `u64::MAX` compiled vs 0 interpreted: `MISS_VAL`
vs `0.0`).  Each conjunct forces one hypothesis of the amended theorem. -/
theorem c1_equivalence_counterexample :
    (try_compile_array_layout refTc cacheC [⟨0, 1, 1⟩] 16 = .ok (some layoutA) ∧
      runsAgreeB layoutA.fields
        (runReps refTc cacheC [⟨0, 1, 1⟩] 16 stLocal4 ⟨240 :: List.replicate 15 1, 0⟩)
        (parse_compiled_array layoutA 16 ⟨240 :: List.replicate 15 1, 0⟩) = false) ∧
    (try_compile_array_layout refTc cacheC [⟨0, 1, 1⟩, ⟨2, 2, 130⟩] 16 = .ok (some layoutA) ∧
      runsAgreeB layoutA.fields
        (runReps refTc cacheC [⟨0, 1, 1⟩, ⟨2, 2, 130⟩] 16 State.empty ⟨List.replicate 16 1, 0⟩)
        (parse_compiled_array layoutA 16 ⟨List.replicate 16 1, 0⟩) = false) ∧
    (try_compile_array_layout refTc cacheC [⟨2, 2, 130⟩, ⟨2, 7, 1⟩, ⟨0, 1, 1⟩, ⟨2, 2, 0⟩] 16 =
        .ok (some layoutC18) ∧
      runsAgreeB layoutC18.fields
        (runReps refTc cacheC [⟨2, 2, 130⟩, ⟨2, 7, 1⟩, ⟨0, 1, 1⟩, ⟨2, 2, 0⟩] 16 State.empty
          ⟨List.replicate 36 1, 0⟩)
        (parse_compiled_array layoutC18 16 ⟨List.replicate 36 1, 0⟩) = false ∧
      (runReps refTc cacheC [⟨2, 2, 130⟩, ⟨2, 7, 1⟩, ⟨0, 1, 1⟩, ⟨2, 2, 0⟩] 16 State.empty
            ⟨List.replicate 36 1, 0⟩).toOption.map
          (fun r => ((r.1.headD []).headD ⟨"", "", .missing⟩).value.as_f64) =
        some (some (Rat.divInt 1028 10)) ∧
      (parse_compiled_array layoutC18 16 ⟨List.replicate 36 1, 0⟩).toOption.map
          (fun r => ((r.1.headD ⟨"", "", []⟩).cells.headD none).map
            (fun c => ratValue c.1 c.2.1 c.2.2)) =
        some (some (Rat.divInt 10280 1)) ∧
      Rat.divInt 1028 10 ≠ Rat.divInt 10280 1) ∧
    (try_compile_array_layout refTc cacheC [⟨0, 2, 1⟩] 16 = .ok (some layoutD64) ∧
      runsAgreeB layoutD64.fields
        (runReps refTc cacheC [⟨0, 2, 1⟩] 16 State.empty ⟨List.replicate 128 0, 0⟩)
        (parse_compiled_array layoutD64 16 ⟨List.replicate 128 0, 0⟩) = false) := by
  exact ⟨⟨by decide, by decide⟩, ⟨by decide, by decide⟩,
    ⟨by decide, by decide, by decide, by decide, by decide⟩, ⟨by decide, by decide⟩⟩

end RBufr
